import Mathlib

/-- A parsed JSON value, as produced by Python's `json.load`.  Python `None`
(JSON `null`) is `null`; numbers are restricted to integers (floating point
numbers never occur in the behaviours verified here). -/
inductive JValue where
  | null : JValue
  | bool : Bool → JValue
  | num : Int → JValue
  | str : String → JValue
  | arr : List JValue → JValue
  | obj : List (String × JValue) → JValue

/-- A Python dict with string keys, as produced by `json.load` for a JSON
object.  Keys are assumed unique (for duplicate keys `json.load` keeps only
the last one). -/
abbrev PyDict := List (String × JValue)

/-- Model of `d.get(k, dflt)` on a Python dict. -/
def dictGetD (d : PyDict) (k : String) (dflt : JValue) : JValue :=
  match d.find? (fun p => p.1 == k) with
  | some p => p.2
  | none => dflt

/-- Model of `rule.get(k)` (default `None`) where `rule` is an arbitrary JSON value.
Only ever applied to objects: on a non-object Python raises
`AttributeError`, which the callers in this file handle before calling. -/
def jget (v : JValue) (k : String) : JValue :=
  match v with
  | .obj fs => dictGetD fs k .null
  | _ => .null

/-- Python truthiness (`bool(v)`) of a JSON value. -/
def pyTruthy : JValue → Bool
  | .null => false
  | .bool b => b
  | .num n => n != 0
  | .str s => s != ""
  | .arr xs => !xs.isEmpty
  | .obj fs => !fs.isEmpty

/-- The whitespace characters stripped by Python's `str.strip()`. -/
def pyWS (c : Char) : Bool :=
  c = ' ' || c = '\t' || c = '\n' || c = '\r' || c = '\x0b' || c = '\x0c'

/-- Python `s.strip()` on a character list. -/
def pyStripL (l : List Char) : List Char :=
  ((l.dropWhile pyWS).reverse.dropWhile pyWS).reverse

/-- Python `s.strip()`. -/
def pyStrip (s : String) : String :=
  String.mk (pyStripL s.toList)

/-- Model of `utils.is_blank`: true when the string is empty or whitespace only. -/
def is_blank (s : String) : Bool :=
  pyStrip s == ""

/-- Python `s.capitalize()`: first character upper-cased, the rest
lower-cased (ASCII suffices for the action names involved). -/
def pyCapitalize (s : String) : String :=
  match s.toList with
  | [] => ""
  | c :: cs => String.mk (c.toUpper :: cs.map Char.toLower)

mutual
/-- Python `repr(v)` of a JSON value.  String escaping and quote selection
are not modelled (composite values never reach an f-string in a validated
configuration, so only the scalar cases matter to the verified claims). -/
def pyRepr : JValue → String
  | .null => "None"
  | .bool true => "True"
  | .bool false => "False"
  | .num n => toString n
  | .str s => "'" ++ s ++ "'"
  | .arr xs => "[" ++ pyReprList xs ++ "]"
  | .obj fs => "\x7b" ++ pyReprFields fs ++ "\x7d"

def pyReprList : List JValue → String
  | [] => ""
  | [x] => pyRepr x
  | x :: xs => pyRepr x ++ ", " ++ pyReprList xs

def pyReprFields : List (String × JValue) → String
  | [] => ""
  | [(k, v)] => "'" ++ k ++ "': " ++ pyRepr v
  | (k, v) :: fs => "'" ++ k ++ "': " ++ pyRepr v ++ ", " ++ pyReprFields fs
end

/-- Python `str(v)` of a JSON value, as interpolated by an f-string. -/
def pyStr : JValue → String
  | .null => "None"
  | .bool true => "True"
  | .bool false => "False"
  | .num n => toString n
  | .str s => s
  | .arr xs => "[" ++ pyReprList xs ++ "]"
  | .obj fs => "\x7b" ++ pyReprFields fs ++ "\x7d"

/-- Python `value == "*"` for a JSON value: true exactly for the string
`"*"` (equality between a non-string value and a string is `False`). -/
def isStarValue : JValue → Bool
  | .str s => s == "*"
  | _ => false

/-- Python `==` between a rule's `layer` value and the JSON value
extracted from the daemon's response.  The extracted value is a string or
`None` in every modelled behaviour (see `daemonHandle`), and scalars
compare structurally; equality between two composite values is therefore
never exercised and is modelled as `false`. -/
def py_eq_name (layer name : JValue) : Bool :=
  match layer, name with
  | .null, .null => true
  | .bool a, .bool b => a == b
  | .num a, .num b => a == b
  | .str a, .str b => a == b
  | _, _ => false

/-- Outcome of validation: normal return, process termination through
`fatal(message)`, or an unhandled Python exception (named by its type). -/
inductive VOutcome where
  | ok : VOutcome
  | fatal : String → VOutcome
  | pyError : String → VOutcome
deriving DecidableEq, Repr

/-- The allowed rule keys, in the order written in the source.  (The source
stores them in a Python `set`; its iteration order is unspecified, the
source order is used for rendering messages.) -/
def allowed_rule_keys : List String :=
  ["class", "title", "layer", "fake_key", "set_mouse", "cmd"]

/-- The valid fake-key actions, in the order written in the source. -/
def valid_actions : List String :=
  ["Press", "Release", "Tap", "Toggle"]

def joinComma (l : List String) : String :=
  String.intercalate ", " l

/-- Model of `utils.validate_fake_key`: unpacks the pair, rejects a blank name,
normalizes the action with `capitalize()` and checks it against the valid
actions.  A list that does not unpack into exactly two elements raises
`ValueError` in Python. -/
def validate_fake_key (fake_key : List String) (rule_no : Option Nat) :
    Except VOutcome (String × String) :=
  match fake_key with
  | [name, action0] =>
    if is_blank name then
      .error (.fatal "Fake key name must not be blank")
    else
      let action := pyCapitalize action0
      if action ∈ valid_actions then .ok (name, action)
      else
        let actions := joinComma valid_actions
        if (match rule_no with | some n => n != 0 | none => false) then
          .error (.fatal ("Invalid config: rule #" ++ toString (rule_no.getD 0) ++
            " '" ++ action ++ "' must be one of: " ++ actions))
        else
          .error (.fatal ("Invalid action '" ++ action ++ "'. Must be one of: " ++ actions))
  | _ => .error (.pyError "ValueError")

/-- Model of `isinstance(v, list) and all(isinstance(k, str) for k in v)`. -/
def isStrList : JValue → Bool
  | .arr xs => xs.all (fun x => match x with | .str _ => true | _ => false)
  | _ => false

/-- Model of `isinstance(v, list) and all(isinstance(k, int) for k in v)`.
Python's `bool` is a subclass of `int`, so booleans count as integers. -/
def isIntList : JValue → Bool
  | .arr xs => xs.all (fun x => match x with | .num _ => true | .bool _ => true | _ => false)
  | _ => false

/-- Extract the strings of a `JValue` list known to pass `isStrList`. -/
def asStrList : List JValue → Option (List String)
  | [] => some []
  | .str s :: xs => (asStrList xs).map (s :: ·)
  | _ => none

/-- The `for key in ["class", "title", "layer", "cmd"]` loop of
`Config._validate`: each value must be a non-blank string, or `False` /
`None` (absent or JSON `null`) to be skipped. -/
def checkStrKeys (rule_no : Nat) (fields : PyDict) : List String → Option String
  | [] => none
  | k :: ks =>
    let v := dictGetD fields k .null
    match v with
    | .null => checkStrKeys rule_no fields ks
    | .bool false => checkStrKeys rule_no fields ks
    | .str s =>
      if is_blank s then
        some ("Invalid config: key '" ++ k ++ "' in rule #" ++ toString rule_no ++
          " must be a non-empty string or set to false/null or be removed to disable it.")
      else checkStrKeys rule_no fields ks
    | _ =>
      some ("Invalid config: key '" ++ k ++ "' in rule #" ++ toString rule_no ++
        " must be a non-empty string or set to false/null or be removed to disable it.")

/-- Validation of a single rule, following the statement order of the body
of the `for i, rule in enumerate(self.rules)` loop in `Config._validate`.
A rule that is not a dict raises `AttributeError` at the very first
attribute access (`rule.get("fake_key")`), before the explicit
non-empty-object check is ever reached. -/
def validateRule (kanata_layers : List String) (rule_no : Nat) (rule : JValue) : VOutcome :=
  match rule with
  | .obj fields =>
    let rule_fake_key := dictGetD fields "fake_key" .null
    let rule_set_mouse := dictGetD fields "set_mouse" .null
    let unexpected := (fields.map (·.1)).filter (fun k => !allowed_rule_keys.contains k)
    if !unexpected.isEmpty then
      .fatal ("Invalid config: rule #" ++ toString rule_no ++
        " contains unexpected keys(s): " ++ joinComma unexpected ++
        ". Allowed keys: [" ++ joinComma allowed_rule_keys ++ "].")
    else
      match checkStrKeys rule_no fields ["class", "title", "layer", "cmd"] with
      | some msg => .fatal msg
      | none =>
        if fields.isEmpty then
          .fatal ("Invalid config: rule #" ++ toString rule_no ++
            " must be a non-empty JSON object (key-value pairs).")
        else
          let fkOutcome :=
            if pyTruthy rule_fake_key then
              if !isStrList rule_fake_key then
                VOutcome.fatal ("Invalid config: 'fake_key' in rule #" ++ toString rule_no ++
                  " must be an array of strings.")
              else
                match rule_fake_key with
                | .arr xs =>
                  match asStrList xs with
                  | some ss =>
                    match validate_fake_key ss (some rule_no) with
                    | .ok _ => .ok
                    | .error e => e
                  | none => .pyError "TypeError"
                | _ => .pyError "TypeError"
            else .ok
          match fkOutcome with
          | .ok =>
            if pyTruthy rule_set_mouse && !isIntList rule_set_mouse then
              .fatal ("Invalid config: 'set_mouse' in rule #" ++ toString rule_no ++
                " must be an array of integers.")
            else
              let layer := dictGetD fields "layer" .null
              if pyTruthy layer then
                match layer with
                | .str s =>
                  if kanata_layers.contains s then .ok
                  else
                    .fatal ("Invalid config: layer '" ++ s ++ "' in rule #" ++ toString rule_no ++
                      " is not defined in your Kanata config. Use -l or --layers to list available layers.")
                | v =>
                  .fatal ("Invalid config: layer '" ++ pyStr v ++ "' in rule #" ++ toString rule_no ++
                    " is not defined in your Kanata config. Use -l or --layers to list available layers.")
              else .ok
          | e => e
  | _ => .pyError "AttributeError"

/-- The rule loop of `Config._validate` (1-based rule numbering). -/
def validateRules (kanata_layers : List String) (rule_no : Nat) : List JValue → VOutcome
  | [] => .ok
  | rule :: rest =>
    match validateRule kanata_layers rule_no rule with
    | .ok => validateRules kanata_layers (rule_no + 1) rest
    | e => e

/-- Model of `Config._validate`: the top-level value must be an array, then every
rule is validated in order. -/
def validateConfig (kanata_layers : List String) (cfg : JValue) : VOutcome :=
  match cfg with
  | .arr rules => validateRules kanata_layers 1 rules
  | _ => .fatal "Invalid config format: expected an array."

/-- Model of `"rule #<n>" appears in the message` — used to state that a diagnostic
names a rule's 1-based index. -/
def namesRule (msg : String) (n : Nat) : Bool :=
  decide (("rule #" ++ toString n).toList <:+: msg.toList)

/-- Abstract syntax of the modelled regular-expression fragment.  `nul`
matches nothing (it only arises from taking derivatives); `anyc` is `.`,
which in Python matches any character except a newline. -/
inductive RE where
  | nul : RE
  | eps : RE
  | chr : Char → RE
  | anyc : RE
  | seq : RE → RE → RE
  | alt : RE → RE → RE
  | star : RE → RE
deriving DecidableEq, Repr

/-- The language of a regular expression.  A `star` derivation consumes a
non-empty chunk at each step, which is equivalent to the usual semantics. -/
inductive Matches : RE → List Char → Prop where
  | eps : Matches .eps []
  | chr (c : Char) : Matches (.chr c) [c]
  | anyc (c : Char) (h : c ≠ '\n') : Matches .anyc [c]
  | altL {a b : RE} {s : List Char} : Matches a s → Matches (.alt a b) s
  | altR {a b : RE} {s : List Char} : Matches b s → Matches (.alt a b) s
  | seq {a b : RE} {u v : List Char} :
      Matches a u → Matches b v → Matches (.seq a b) (u ++ v)
  | starNil (a : RE) : Matches (.star a) []
  | starCons {a : RE} {u v : List Char} :
      Matches a u → Matches (.star a) v → u ≠ [] → Matches (.star a) (u ++ v)

/-- Whether `r` accepts the empty string. -/
def nullable : RE → Bool
  | .nul => false
  | .eps => true
  | .chr _ => false
  | .anyc => false
  | .seq a b => nullable a && nullable b
  | .alt a b => nullable a || nullable b
  | .star _ => true

/-- Brzozowski derivative of `r` by the character `c`. -/
def rderiv : RE → Char → RE
  | .nul, _ => .nul
  | .eps, _ => .nul
  | .chr d, c => if c = d then .eps else .nul
  | .anyc, c => if c = '\n' then .nul else .eps
  | .seq a b, c =>
    if nullable a then .alt (.seq (rderiv a c) b) (rderiv b c) else .seq (rderiv a c) b
  | .alt a b, c => .alt (rderiv a c) (rderiv b c)
  | .star a, c => .seq (rderiv a c) (.star a)

/-- Whether `r` matches all of `s` (derivative-based matcher). -/
def matchesFull (r : RE) : List Char → Bool
  | [] => nullable r
  | c :: cs => matchesFull (rderiv r c) cs

/-- Model of `re.match(r, s)` truthiness: `r` matches some prefix of `s`. -/
def reMatches (r : RE) : List Char → Bool
  | [] => nullable r
  | c :: cs => nullable r || reMatches (rderiv r c) cs

/-- One optional postfix repetition operator, applied to the atom just
parsed.  A second consecutive operator is not consumed here; the following
`parseSeq` step then fails on it, matching Python's multiple-repeat error. -/
def parsePost (r : RE) (s : List Char) : RE × List Char :=
  match s with
  | c :: rest =>
    if c = '*' then (.star r, rest)
    else if c = '+' then (.seq r (.star r), rest)
    else if c = '?' then (.alt r .eps, rest)
    else (r, s)
  | [] => (r, s)

/-- Characters that are metacharacters for Python `re` (and therefore are
not literals).  `[`, `]`, `\`, `^`, `$` and the braces are metacharacters
outside the modelled fragment: an atom starting with one of them makes the
parse fail. -/
def reSpecial (c : Char) : Bool :=
  c = '.' || c = '*' || c = '+' || c = '?' || c = '|' || c = '(' || c = ')' ||
  c = '[' || c = ']' || c = '\\' || c = '^' || c = '$' ||
  c = Char.ofNat 123 || c = Char.ofNat 125

mutual
/-- Parse an alternation (`a|b|...`). -/
def parseAlt (fuel : Nat) (s : List Char) : Option (RE × List Char) :=
  match fuel with
  | 0 => none
  | fuel + 1 =>
    match parseSeq fuel s with
    | none => none
    | some (a, s1) =>
      match s1 with
      | '|' :: s2 =>
        match parseAlt fuel s2 with
        | none => none
        | some (b, s3) => some (.alt a b, s3)
      | _ => some (a, s1)

/-- Parse a (possibly empty) sequence of atoms with postfix operators,
stopping before `)` or `|` or at the end of input. -/
def parseSeq (fuel : Nat) (s : List Char) : Option (RE × List Char) :=
  match fuel with
  | 0 => none
  | fuel + 1 =>
    match s with
    | [] => some (.eps, [])
    | c :: rest =>
      if c = ')' || c = '|' then some (.eps, c :: rest)
      else
        match parseAtom fuel (c :: rest) with
        | none => none
        | some (a, s1) =>
          let (a2, s2) := parsePost a s1
          match parseSeq fuel s2 with
          | none => none
          | some (b, s3) => some (.seq a2 b, s3)

/-- Parse one atom: a parenthesised group, `.`, or a literal character. -/
def parseAtom (fuel : Nat) (s : List Char) : Option (RE × List Char) :=
  match fuel with
  | 0 => none
  | fuel + 1 =>
    match s with
    | [] => none
    | c :: rest =>
      if c = '(' then
        match parseAlt fuel rest with
        | none => none
        | some (r, s1) =>
          match s1 with
          | ')' :: s2 => some (r, s2)
          | _ => none
      else if c = '.' then some (.anyc, rest)
      else if reSpecial c then none
      else some (.chr c, rest)
end

/-- Model of `re.compile(pattern)` for the modelled fragment: `some r` when the
pattern compiles, `none` when Python raises `re.error` (or the pattern
uses a metacharacter outside the modelled fragment). -/
def parseRE (pattern : String) : Option RE :=
  match parseAlt (3 * pattern.toList.length + 3) pattern.toList with
  | some (r, []) => some r
  | _ => none

/-- Model of `re.match(pattern, subject)` truthiness; `none` when compiling the
pattern raises. -/
def re_match (pattern : String) (subject : String) : Option Bool :=
  (parseRE pattern).map (fun r => reMatches r subject.toList)

/-- The window description handed to `detect_rule` by the listener: the
active window's class and title (either defaulted to `"*"` by the window
manager adapters when unknown). -/
structure WinInfo where
  cls : String
  title : String
deriving DecidableEq, Repr

/-- The inner `to_pattern` of `Config.detect_rule`: the f-string
`".*" + str(value) + ".*"`, except for the exact string `"*"` which
becomes `".*"`. -/
def to_pattern (value : JValue) : String :=
  if !isStarValue value then ".*" ++ pyStr value ++ ".*" else ".*"

/-- Model of `Config.detect_rule`: first-match-wins linear scan.  For each rule the
class pattern is compiled and matched first; the title pattern is compiled
only when the class matched (Python's `and` short-circuits).  A pattern
that fails to compile raises `re.error`, modelled as `.error ()`. -/
def detect_rule (rules : List PyDict) (win_info : WinInfo) : Except Unit (Option PyDict) :=
  match rules with
  | [] => .ok none
  | rule :: rest =>
    let pattern_class := to_pattern (dictGetD rule "class" (.str "*"))
    let pattern_title := to_pattern (dictGetD rule "title" (.str "*"))
    match re_match pattern_class win_info.cls with
    | none => .error ()
    | some false => detect_rule rest win_info
    | some true =>
      match re_match pattern_title win_info.title with
      | none => .error ()
      | some false => detect_rule rest win_info
      | some true => .ok (some rule)

/-- Both patterns of a rule compile and match the window (the matching
predicate of the `detect_rule` scan, for stating first-match-wins). -/
def ruleMatches (rule : PyDict) (win_info : WinInfo) : Bool :=
  (re_match (to_pattern (dictGetD rule "class" (.str "*"))) win_info.cls == some true) &&
  (re_match (to_pattern (dictGetD rule "title" (.str "*"))) win_info.title == some true)

/-- The JSON requests `Kanata` sends (the constructors mirror the literal
dicts passed to `Kanata.send`). -/
inductive Request where
  | requestCurrentLayerName : Request
  | requestCurrentLayerInfo : Request
  | requestLayerNames : Request
  | changeLayer : JValue → Request
  | actOnFakeKey : String → String → Request
  | setMouse : JValue → JValue → Request

/-- A received response line: either it parses as JSON or it does not. -/
inductive RespLine where
  | json : JValue → RespLine
  | malformed : RespLine

/-- Environment model of the kanata daemon on the other side of the TCP
socket (an external program, not code of this repository): `responsive`
says whether its response line arrives before the client's short receive
timeout, `garbled` whether that line fails to parse as JSON, and `applies`
whether it actually carries out a requested layer change. -/
structure Daemon where
  currentLayer : JValue
  responsive : Bool
  garbled : Bool
  applies : Bool

/-- How the modelled daemon reacts to one request: its next state and the
response line the client sees before its receive timeout (if any).  The
payload of responses to non-query requests is irrelevant to the client
(it is parsed and discarded), so it is modelled as an empty object. -/
def daemonHandle (d : Daemon) : Request → Daemon × Option RespLine
  | .requestCurrentLayerName =>
    (d, if !d.responsive then none
        else if d.garbled then some .malformed
        else some (.json (.obj [("CurrentLayerName", .obj [("name", d.currentLayer)])])))
  | .changeLayer v =>
    ({ d with currentLayer := if d.applies then v else d.currentLayer },
     if !d.responsive then none
     else if d.garbled then some .malformed
     else some (.json (.obj [])))
  | _ =>
    (d, if !d.responsive then none
        else if d.garbled then some .malformed
        else some (.json (.obj [])))

/-- The client's observable protocol state: the requests transmitted over
the socket, in order. -/
structure KClient where
  sent : List Request

/-- Model of `Kanata.send` at the request level: transmit the request, return the
response line (or `none` on timeout). -/
def ksend (c : KClient) (d : Daemon) (req : Request) : KClient × Daemon × Option RespLine :=
  let (d1, resp) := daemonHandle d req
  (⟨c.sent ++ [req]⟩, d1, resp)

/-- Model of `Kanata._parse_json_response`: `None` or undecodable JSON becomes an
empty dict. -/
def parse_json_response : Option RespLine → JValue
  | some (.json v) => v
  | some .malformed => .obj []
  | none => .obj []

/-- Model of `Kanata.get_current_layer_name`:
`data.get("CurrentLayerName", {}).get("name")`. -/
def get_current_layer_name (c : KClient) (d : Daemon) : JValue × KClient × Daemon :=
  let (c1, d1, resp) := ksend c d .requestCurrentLayerName
  let data := parse_json_response resp
  (jget (jget data "CurrentLayerName") "name", c1, d1)

/-- The layer name a fresh `get_current_layer_name` query would return
against daemon `d` (`null` models Python `None`, returned on timeout or a
malformed response). -/
def queried_layer_name (d : Daemon) : JValue :=
  jget (jget (parse_json_response (daemonHandle d .requestCurrentLayerName).2)
    "CurrentLayerName") "name"

/-- Model of `Kanata.change_layer`: query the current layer name first; when it
equals the requested layer, return `False` without a `ChangeLayer`
request, otherwise send `ChangeLayer` and return `True` (without waiting
for any acknowledgment of the change itself). -/
def change_layer (c : KClient) (d : Daemon) (layer : JValue) : Bool × KClient × Daemon :=
  let (name, c1, d1) := get_current_layer_name c d
  if py_eq_name layer name then (false, c1, d1)
  else
    let (c2, d2, _) := ksend c1 d1 (.changeLayer layer)
    (true, c2, d2)

/-- Model of `Kanata.act_on_fake_key` as invoked by the dispatch handler on a rule's
`fake_key` value: runtime re-validation via `utils.validate_fake_key`
(rule number `None`), then an `ActOnFakeKey` request.  `none` models the
process dying (a `fatal` inside `validate_fake_key`, or an unpacking
error); a truthy non-array value cannot reach this call from a validated
configuration. -/
def act_on_fake_key (c : KClient) (d : Daemon) (fk : JValue) : Option (KClient × Daemon) :=
  match fk with
  | .arr xs =>
    match asStrList xs with
    | some ss =>
      match validate_fake_key ss none with
      | .ok (name, action) =>
        let (c1, d1, _) := ksend c d (.actOnFakeKey name action)
        some (c1, d1)
      | .error _ => none
    | none => none
  | _ => none

/-- Model of `Kanata.set_mouse` as invoked by the dispatch handler on a rule's
`set_mouse` value: `x, y = pos` then a `SetMouse` request.  `none` models
the `ValueError` Python raises when the value does not unpack into exactly
two elements. -/
def kanata_set_mouse (c : KClient) (d : Daemon) (pos : JValue) : Option (KClient × Daemon) :=
  match pos with
  | .arr [x, y] =>
    let (c1, d1, _) := ksend c d (.setMouse x y)
    some (c1, d1)
  | _ => none

/-- The de-duplication cache of `on_focus_event` (`last_win_title`,
`last_win_class`), both initially Python `None`. -/
structure ListenerState where
  lastWinTitle : Option String
  lastWinCls : Option String
deriving DecidableEq, Repr

/-- Side effects of one focus event that do not go through the kanata
socket, plus markers for observing the control flow: `lookup` records a
`detect_rule` query, `dispatch` that a matched rule was processed. -/
inductive Act where
  | lookup : Act
  | dispatch : Act
  | runCmd : JValue → Act

/-- Result of one focus event: the new listener/client/daemon state and
the actions taken, or `died` when an unhandled exception or `fatal` ended
the process. -/
inductive StepRes where
  | ok : ListenerState → KClient → Daemon → List Act → StepRes
  | died : StepRes

/-- The `on_focus_event` closure of `WMBaseListener.listen`, for a focus
notification carrying `win`:

1. if class and title both equal the cached pair, do nothing;
2. otherwise query `detect_rule`; on no match, do nothing further;
3. on a match, update the cache, read the rule's `layer`; when it is
   falsy, return; otherwise call `change_layer`, and when that returned
   `True`, fire `cmd` (in the background), `fake_key` and `set_mouse` in
   that order, each only when truthy. -/
def on_focus_event (rules : List PyDict) (st : ListenerState) (c : KClient) (d : Daemon)
    (win : WinInfo) : StepRes :=
  if some win.title ≠ st.lastWinTitle ∨ some win.cls ≠ st.lastWinCls then
    match detect_rule rules win with
    | .error _ => .died
    | .ok none => .ok st c d [.lookup]
    | .ok (some rule) =>
      let st1 : ListenerState := ⟨some win.title, some win.cls⟩
      let rule_layer := dictGetD rule "layer" .null
      if !pyTruthy rule_layer then .ok st1 c d [.lookup, .dispatch]
      else
        let (okFlag, c1, d1) := change_layer c d rule_layer
        if okFlag then
          let rule_cmd := dictGetD rule "cmd" .null
          let fake_key := dictGetD rule "fake_key" .null
          let set_mouse := dictGetD rule "set_mouse" .null
          let acts := [.lookup, .dispatch] ++
            (if pyTruthy rule_cmd then [Act.runCmd rule_cmd] else [])
          match (if pyTruthy fake_key then act_on_fake_key c1 d1 fake_key
                 else some (c1, d1)) with
          | none => .died
          | some (c2, d2) =>
            match (if pyTruthy set_mouse then kanata_set_mouse c2 d2 set_mouse
                   else some (c2, d2)) with
            | none => .died
            | some (c3, d3) => .ok st1 c3 d3 acts
        else .ok st1 c1 d1 [.lookup, .dispatch]
  else .ok st c d []

/-- The number of matched-rule dispatches observed in a step result; a
step on which the process died counts as one (the death happened while
dispatching or looking up). -/
def dispatchCount : StepRes → Nat
  | .ok _ _ _ acts =>
    (acts.filter (fun a => match a with | Act.dispatch => true | _ => false)).length
  | .died => 1

/-- Python `buffer.split("\n")` over a character list. -/
def splitNl : List Char → List (List Char)
  | [] => [[]]
  | c :: cs =>
    if c = '\n' then [] :: splitNl cs
    else
      match splitNl cs with
      | [] => [[c]]
      | p :: ps => (c :: p) :: ps

/-- The client's receive-buffer state (`Kanata._buffer`). -/
structure BufClient where
  buffer : List Char

/-- Model of `Kanata._flush_buffer`: drain whatever is already waiting (`incoming`),
then, when the buffer holds a newline, keep only the part after the last
newline. -/
def flush_buffer (c : BufClient) (incoming : List (List Char)) : BufClient :=
  let buf := c.buffer ++ incoming.flatten
  if '\n' ∈ buf then ⟨(splitNl buf).getLastD []⟩
  else ⟨buf⟩

/-- The receive loop of `Kanata.send`: accumulate chunks while the buffer
holds no newline; an exhausted chunk list is the timeout (or a closed
peer, which leads to the same overall result). -/
def recv_until_nl (buf : List Char) : List (List Char) → List Char
  | [] => buf
  | chunk :: rest => if '\n' ∈ buf then buf else recv_until_nl (buf ++ chunk) rest

/-- Model of `Kanata.send` after the flush and the request bytes going out: receive
until a newline or timeout (`post`); on timeout return `None` keeping the
buffer, otherwise split the buffer into lines, keep the incomplete tail,
and return the first non-blank complete line, stripped. -/
def send_recv (c : BufClient) (pre post : List (List Char)) :
    Option (List Char) × BufClient :=
  let c1 := flush_buffer c pre
  let buf := recv_until_nl c1.buffer post
  if '\n' ∈ buf then
    let lines := splitNl buf
    let c2 : BufClient := ⟨lines.getLastD []⟩
    ((lines.dropLast.find? (fun l => !(pyStripL l).isEmpty)).map pyStripL, c2)
  else (none, ⟨buf⟩)

/-- The two-rule example from the spec (§8): `[{class:"a"}, {class:"a",title:"b"}]`. -/
def ruleClassA : PyDict := [("class", JValue.str "a")]

def ruleClassATitleB : PyDict := [("class", JValue.str "a"), ("title", JValue.str "b")]

/-- A rule whose class is the string `"("` — a non-blank string, so it
passes configuration validation. -/
def ruleParenClass : PyDict := [("class", JValue.str "(")]

/-- The parse tree of `".*" ++ S ++ ".*"` for a literal string `S`:
`.*`, then the characters of `S`, then `.*` (right-nested, as produced by
`parseSeq`). -/
def wordChain (S : List Char) : RE :=
  S.foldr (fun c r => .seq (.chr c) r) (.seq (.star .anyc) .eps)

def patRE (S : List Char) : RE :=
  .seq (.star .anyc) (wordChain S)

/-- Number of `ChangeLayer` requests in a transmission trace. -/
def countChangeLayer (l : List Request) : Nat :=
  (l.filter (fun r => match r with | .changeLayer _ => true | _ => false)).length

/-- Two consecutive `change_layer` calls with the same argument and no
interference other than the daemon's own reaction. -/
def change_layer_twice (c : KClient) (d : Daemon) (layer : JValue) :
    Bool × KClient × Daemon :=
  let r1 := change_layer c d layer
  change_layer r1.2.1 r1.2.2 layer

/-- A healthy daemon: current layer `"base"`, responsive, well-formed
responses, applies requested changes. -/
def d_active_base : Daemon :=
  { currentLayer := .str "base", responsive := true, garbled := false, applies := true }

/-- A dead daemon: never answers before the client's timeout and applies
nothing. -/
def d_dead : Daemon :=
  { currentLayer := .str "base", responsive := false, garbled := false, applies := false }

/-- A rule with a layer and all three side effects. -/
def ruleFull : PyDict :=
  [("class", .str "x"), ("layer", .str "l"), ("cmd", .str "c"),
   ("fake_key", .arr [.str "k", .str "tap"]), ("set_mouse", .arr [.num 1, .num 2])]

/-- Dispatches of the second of two consecutive handler invocations with
the same window (`0` if the process already died on the first). -/
def secondDispatches (rules : List PyDict) (st : ListenerState) (c : KClient)
    (d : Daemon) (win : WinInfo) : Nat :=
  match on_focus_event rules st c d win with
  | .ok st1 c1 d1 _ => dispatchCount (on_focus_event rules st1 c1 d1 win)
  | .died => 0

/-- The outcome is a `fatal` diagnostic whose message names rule `n`. -/
def fatalNaming (o : VOutcome) (n : Nat) : Bool :=
  match o with
  | .fatal m => namesRule m n
  | _ => false

/-! ## Theorems -/

theorem matches_nul {s : List Char} (h : Matches .nul s) : False := by
  cases h

theorem matches_eps {s : List Char} : Matches .eps s ↔ s = [] := by
  constructor
  · intro h; cases h; rfl
  · rintro rfl; exact .eps

theorem matches_chr {c : Char} {s : List Char} : Matches (.chr c) s ↔ s = [c] := by
  constructor
  · intro h; cases h; rfl
  · rintro rfl; exact .chr c

theorem matches_anyc {s : List Char} : Matches .anyc s ↔ ∃ c, s = [c] ∧ c ≠ '\n' := by
  constructor
  · intro h; cases h with | anyc c h => exact ⟨c, rfl, h⟩
  · rintro ⟨c, rfl, h⟩; exact .anyc c h

theorem matches_alt {a b : RE} {s : List Char} :
    Matches (.alt a b) s ↔ Matches a s ∨ Matches b s := by
  constructor
  · intro h
    cases h with
    | altL h => exact Or.inl h
    | altR h => exact Or.inr h
  · rintro (h | h)
    · exact .altL h
    · exact .altR h

theorem matches_seq {a b : RE} {s : List Char} :
    Matches (.seq a b) s ↔ ∃ u v, s = u ++ v ∧ Matches a u ∧ Matches b v := by
  constructor
  · intro h
    cases h with
    | seq hu hv => exact ⟨_, _, rfl, hu, hv⟩
  · rintro ⟨u, v, rfl, hu, hv⟩; exact .seq hu hv

theorem matches_star {a : RE} {s : List Char} :
    Matches (.star a) s ↔
      s = [] ∨ ∃ u v, s = u ++ v ∧ u ≠ [] ∧ Matches a u ∧ Matches (.star a) v := by
  constructor
  · intro h
    cases h with
    | starNil => exact Or.inl rfl
    | starCons hu hv hne => exact Or.inr ⟨_, _, rfl, hne, hu, hv⟩
  · rintro (rfl | ⟨u, v, rfl, hne, hu, hv⟩)
    · exact .starNil a
    · exact .starCons hu hv hne

theorem nullable_iff {r : RE} : nullable r = true ↔ Matches r [] := by
  induction r with
  | nul => simp only [nullable]; exact ⟨by simp, fun h => absurd h (fun h => matches_nul h)⟩
  | eps => simp [nullable, matches_eps]
  | chr c => simp [nullable, matches_chr]
  | anyc => simp [nullable, matches_anyc]
  | seq a b iha ihb =>
    simp only [nullable, Bool.and_eq_true, matches_seq, iha, ihb]
    constructor
    · rintro ⟨ha, hb⟩; exact ⟨[], [], rfl, ha, hb⟩
    · rintro ⟨u, v, huv, ha, hb⟩
      obtain ⟨rfl, rfl⟩ := List.append_eq_nil.mp huv.symm
      exact ⟨ha, hb⟩
  | alt a b iha ihb => simp [nullable, matches_alt, iha, ihb]
  | star a _ =>
    simp only [nullable]
    exact ⟨fun _ => .starNil a, fun _ => trivial⟩

theorem rderiv_iff {r : RE} {c : Char} {s : List Char} :
    Matches (rderiv r c) s ↔ Matches r (c :: s) := by
  induction r generalizing s with
  | nul =>
    simp only [rderiv]
    exact ⟨fun h => absurd h (fun h => matches_nul h),
           fun h => absurd h (fun h => matches_nul h)⟩
  | eps =>
    simp only [rderiv]
    constructor
    · intro h; exact absurd h (fun h => matches_nul h)
    · intro h; simp [matches_eps] at h
  | chr d =>
    simp only [rderiv]
    by_cases hc : c = d
    · subst hc; simp [matches_eps, matches_chr]
    · simp only [if_neg hc, matches_chr]
      constructor
      · intro h; exact absurd h (fun h => matches_nul h)
      · intro h
        have : c = d := by
          have := List.head_eq_of_cons_eq h
          exact this
        exact absurd this hc
  | anyc =>
    simp only [rderiv]
    by_cases hc : c = '\n'
    · subst hc
      simp only [if_pos rfl, matches_anyc]
      constructor
      · intro h; exact absurd h (fun h => matches_nul h)
      · rintro ⟨d, hd, hne⟩
        exact absurd (List.head_eq_of_cons_eq hd).symm hne
    · simp only [if_neg hc, matches_eps, matches_anyc]
      constructor
      · rintro rfl; exact ⟨c, rfl, hc⟩
      · rintro ⟨d, hd, hne⟩
        exact List.tail_eq_of_cons_eq hd
  | seq a b iha ihb =>
    simp only [rderiv]
    by_cases hna : nullable a
    · simp only [if_pos hna, matches_alt, matches_seq, iha, ihb]
      constructor
      · rintro (⟨u, v, rfl, ha, hb⟩ | hb)
        · exact ⟨c :: u, v, rfl, ha, hb⟩
        · exact ⟨[], c :: s, rfl, nullable_iff.mp hna, hb⟩
      · rintro ⟨u, v, huv, ha, hb⟩
        cases u with
        | nil =>
          right
          have hv : v = c :: s := by simpa using huv.symm
          exact hv ▸ hb
        | cons x u' =>
          left
          have hx : x = c := (List.head_eq_of_cons_eq huv).symm
          subst hx
          have hs : s = u' ++ v := List.tail_eq_of_cons_eq huv
          exact ⟨u', v, hs, ha, hb⟩
    · have hna' : nullable a = false := by simpa using hna
      simp only [hna', Bool.false_eq_true, if_false, matches_seq, iha]
      constructor
      · rintro ⟨u, v, rfl, ha, hb⟩
        exact ⟨c :: u, v, rfl, ha, hb⟩
      · rintro ⟨u, v, huv, ha, hb⟩
        cases u with
        | nil =>
          exfalso
          exact absurd (nullable_iff.mpr ha) (by simp [hna'])
        | cons x u' =>
          have hx : x = c := (List.head_eq_of_cons_eq huv).symm
          subst hx
          have hs : s = u' ++ v := List.tail_eq_of_cons_eq huv
          exact ⟨u', v, hs, ha, hb⟩
  | alt a b iha ihb => simp [rderiv, matches_alt, iha, ihb]
  | star a iha =>
    simp only [rderiv, matches_seq, iha]
    constructor
    · rintro ⟨u, v, rfl, ha, hv⟩
      exact matches_star.mpr (Or.inr ⟨c :: u, v, rfl, by simp, ha, hv⟩)
    · intro h
      rcases matches_star.mp h with h0 | ⟨u, v, huv, hne, hu, hv⟩
      · exact absurd h0 (by simp)
      · cases u with
        | nil => exact absurd rfl hne
        | cons x u' =>
          have hx : x = c := (List.head_eq_of_cons_eq huv).symm
          subst hx
          have hs : s = u' ++ v := List.tail_eq_of_cons_eq huv
          exact ⟨u', v, hs, hu, hv⟩

theorem matchesFull_iff {r : RE} {s : List Char} : matchesFull r s = true ↔ Matches r s := by
  induction s generalizing r with
  | nil => simpa [matchesFull] using nullable_iff
  | cons c cs ih => simpa [matchesFull] using (ih.trans rderiv_iff)

theorem reMatches_iff {r : RE} {s : List Char} :
    reMatches r s = true ↔ ∃ p, p <+: s ∧ Matches r p := by
  induction s generalizing r with
  | nil =>
    simp only [reMatches]
    constructor
    · intro h; exact ⟨[], List.nil_prefix, nullable_iff.mp h⟩
    · rintro ⟨p, hp, hm⟩
      have : p = [] := List.prefix_nil.mp hp
      subst this
      exact nullable_iff.mpr hm
  | cons c cs ih =>
    simp only [reMatches, Bool.or_eq_true, ih]
    constructor
    · rintro (h | ⟨p, hp, hm⟩)
      · exact ⟨[], List.nil_prefix, nullable_iff.mp h⟩
      · exact ⟨c :: p, List.cons_prefix_cons.mpr ⟨rfl, hp⟩, rderiv_iff.mp hm⟩
    · rintro ⟨p, hp, hm⟩
      cases p with
      | nil => exact Or.inl (nullable_iff.mpr hm)
      | cons x p' =>
        obtain ⟨rfl, hp'⟩ := List.cons_prefix_cons.mp hp
        exact Or.inr ⟨p', hp', rderiv_iff.mpr hm⟩

theorem splitNl_ne_nil (s : List Char) : splitNl s ≠ [] := by
  induction s with
  | nil => simp [splitNl]
  | cons c cs ih =>
    simp only [splitNl]
    split
    · simp
    · split
      · simp
      · simp

/-- The last piece of a newline split never contains a newline. -/
theorem splitNl_getLastD_no_nl (s : List Char) : '\n' ∉ (splitNl s).getLastD [] := by
  induction s with
  | nil => simp [splitNl]
  | cons c cs ih =>
    by_cases hc : c = '\n'
    · subst hc
      simp only [splitNl, if_pos rfl, List.getLastD_cons]
      rcases hps : splitNl cs with _ | ⟨p, ps⟩
      · exact absurd hps (splitNl_ne_nil cs)
      · rw [hps] at ih
        simpa [List.getLastD_eq_getLast?] using ih
    · rcases hps : splitNl cs with _ | ⟨p, ps⟩
      · exact absurd hps (splitNl_ne_nil cs)
      · have h1 : splitNl (c :: cs) = (c :: p) :: ps := by
          simp [splitNl, hc, hps]
        rw [h1, List.getLastD_cons]
        rw [hps, List.getLastD_cons] at ih
        cases ps with
        | nil =>
          simp only [List.getLastD_nil] at ih ⊢
          intro hmem
          rcases List.mem_cons.mp hmem with h | h
          · exact hc h.symm
          · exact ih h
        | cons q qs =>
          simpa [List.getLastD_eq_getLast?] using ih

theorem flush_buffer_no_nl (c : BufClient) (incoming : List (List Char)) :
    '\n' ∉ (flush_buffer c incoming).buffer := by
  unfold flush_buffer
  by_cases h : '\n' ∈ c.buffer ++ incoming.flatten
  · simpa [h] using splitNl_getLastD_no_nl (c.buffer ++ incoming.flatten)
  · simp [h]

/-- C5: after every `_flush_buffer` call and after every `send` call the
receive buffer holds no newline character — it is at most one incomplete
line fragment, and every complete received line has been either returned
as the response or discarded. -/
theorem C5_buffer_discipline (c : BufClient) (pre post : List (List Char)) :
    '\n' ∉ (flush_buffer c pre).buffer ∧ '\n' ∉ (send_recv c pre post).2.buffer := by
  refine ⟨flush_buffer_no_nl c pre, ?_⟩
  unfold send_recv
  by_cases h : '\n' ∈ recv_until_nl (flush_buffer c pre).buffer post
  · simpa [h] using
      splitNl_getLastD_no_nl (recv_until_nl (flush_buffer c pre).buffer post)
  · simp [h]

/-- C2: `detect_rule` is a first-match-wins linear scan in file order:
whenever every rule's class and title patterns compile, it returns the
first rule (in list order) whose class pattern and title pattern both
match the window's class and title, and `none` when no rule matches —
precedence is purely positional. -/
theorem C2_first_match_wins (rules : List PyDict) (w : WinInfo)
    (h : ∀ r ∈ rules,
      (parseRE (to_pattern (dictGetD r "class" (.str "*")))).isSome ∧
      (parseRE (to_pattern (dictGetD r "title" (.str "*")))).isSome) :
    detect_rule rules w = .ok (rules.find? (fun r => ruleMatches r w)) := by
  induction rules with
  | nil => rfl
  | cons r rest ih =>
    obtain ⟨hc, ht⟩ := h r (List.mem_cons_self r rest)
    obtain ⟨rc, hrc⟩ := Option.isSome_iff_exists.mp hc
    obtain ⟨rt, hrt⟩ := Option.isSome_iff_exists.mp ht
    have ihr := ih (fun x hx => h x (List.mem_cons_of_mem _ hx))
    simp only [detect_rule, re_match, hrc, hrt, Option.map_some', List.find?,
      ruleMatches]
    cases hb : reMatches rc w.cls.toList with
    | false =>
      simp only [re_match, hrc, hrt, Option.map_some', hb]
      simpa using ihr
    | true =>
      cases hb2 : reMatches rt w.title.toList with
      | false =>
        simp only [re_match, hrc, hrt, Option.map_some', hb, hb2]
        simpa using ihr
      | true =>
        simp only [re_match, hrc, hrt, Option.map_some', hb, hb2]
        simp

/-- Witness for C2: on rules `[{class:"a"}, {class:"a",title:"b"}]` and
window `{class:"a", title:"b"}` the scan returns the first rule, not the
second, more specific one. -/
theorem C2_first_match_wins_witness :
    detect_rule [ruleClassA, ruleClassATitleB] ⟨"a", "b"⟩ =
      .ok (some ruleClassA) := by
  have h := C2_first_match_wins [ruleClassA, ruleClassATitleB] ⟨"a", "b"⟩ (by decide)
  rw [h]
  rfl

/-- C9: rule class/title strings are regex fragments wrapped as
`".*value.*"`, not literal substrings: validation accepts the non-blank
class `"("`, yet `detect_rule` raises an unhandled regex-compile error on
every window query; and a metacharacter changes matching semantics
(`"a.c"` matches the class `"abc"`, which does not contain it). -/
theorem C9_regex_fragments :
    validateConfig [] (.arr [.obj [("class", JValue.str "(")]]) = .ok
    ∧ (∀ w : WinInfo, detect_rule [ruleParenClass] w = .error ())
    ∧ re_match (to_pattern (JValue.str "a.c")) "abc" = some true
    ∧ ¬ ("a.c".toList <:+: "abc".toList) := by
  refine ⟨by decide, ?_, by decide, by decide⟩
  intro w
  have hp : parseRE (to_pattern (dictGetD ruleParenClass "class" (JValue.str "*"))) =
      none := by decide
  simp [detect_rule, re_match, hp]

/-- Counterexample to C3 as stated: the rule string `"a.c"` matches the
window class `"abc"` although `"a.c"` is not a substring of it; and with
rule string `"a"` the window class `"x\nya"` is not matched although `"a"`
is a substring of it (`.*` does not cross a newline). -/
theorem C3_counterexample :
    (detect_rule [[("class", JValue.str "a.c")]] ⟨"abc", "t"⟩ =
        .ok (some [("class", JValue.str "a.c")])
      ∧ ¬ ("a.c".toList <:+: "abc".toList))
    ∧ (detect_rule [[("class", JValue.str "a")]] ⟨"x\nya", "t"⟩ = .ok none
      ∧ "a".toList <:+: "x\nya".toList) := by
  exact ⟨⟨rfl, by decide⟩, ⟨rfl, by decide⟩⟩

theorem reSpecial_false_ne {c : Char} (h : reSpecial c = false) :
    c ≠ '.' ∧ c ≠ '*' ∧ c ≠ '+' ∧ c ≠ '?' ∧ c ≠ '|' ∧ c ≠ '(' ∧ c ≠ ')' := by
  simp only [reSpecial, Bool.or_eq_false_iff, decide_eq_false_iff_not] at h
  tauto

theorem parseAtom_lit {c : Char} (rest : List Char) (fuel : Nat)
    (h : reSpecial c = false) :
    parseAtom (fuel + 1) (c :: rest) = some (.chr c, rest) := by
  obtain ⟨h1, _, _, _, _, h6, _⟩ := reSpecial_false_ne h
  simp [parseAtom, h1, h6, h]

theorem parsePost_no_op {r : RE} {s : List Char}
    (h : ∀ c, s.head? = some c → c ≠ '*' ∧ c ≠ '+' ∧ c ≠ '?') :
    parsePost r s = (r, s) := by
  cases s with
  | nil => rfl
  | cons c rest =>
    obtain ⟨h1, h2, h3⟩ := h c rfl
    simp [parsePost, h1, h2, h3]

theorem parseSeq_lit (S : List Char) : ∀ (fuel : Nat),
    (∀ c ∈ S, reSpecial c = false) → S.length + 3 ≤ fuel →
    parseSeq fuel (S ++ ['.', '*']) = some (wordChain S, []) := by
  induction S with
  | nil =>
    intro fuel _ hf
    obtain ⟨f, rfl⟩ : ∃ f, fuel = f + 1 + 1 + 1 := ⟨fuel - 3, by omega⟩
    simp [parseSeq, parseAtom, parsePost, wordChain]
  | cons c S' ih =>
    intro fuel hS hf
    simp only [List.length_cons] at hf
    obtain ⟨g, rfl⟩ : ∃ g, fuel = g + 1 + 1 := ⟨fuel - 2, by omega⟩
    have hc : reSpecial c = false := hS c (List.mem_cons_self _ _)
    have hS' : ∀ x ∈ S', reSpecial x = false := fun x hx => hS x (List.mem_cons_of_mem _ hx)
    obtain ⟨h1, h2, h3, h4, h5, h6, h7⟩ := reSpecial_false_ne hc
    have hcons : (c :: S') ++ ['.', '*'] = c :: (S' ++ ['.', '*']) := rfl
    rw [hcons]
    have hatom : parseAtom (g + 1) (c :: (S' ++ ['.', '*'])) = some (.chr c, S' ++ ['.', '*']) :=
      parseAtom_lit _ _ hc
    have hpost : parsePost (.chr c) (S' ++ ['.', '*']) = (.chr c, S' ++ ['.', '*']) := by
      apply parsePost_no_op
      intro x hx
      cases S' with
      | nil =>
        simp only [List.nil_append, List.head?_cons, Option.some.injEq] at hx
        subst hx
        refine ⟨by decide, by decide, by decide⟩
      | cons d ds =>
        simp only [List.cons_append, List.head?_cons, Option.some.injEq] at hx
        subst hx
        obtain ⟨_, hd2, hd3, hd4, _, _, _⟩ :=
          reSpecial_false_ne (hS' d (List.mem_cons_self _ _))
        exact ⟨hd2, hd3, hd4⟩
    have hseq : parseSeq (g + 1) (S' ++ ['.', '*']) = some (wordChain S', []) :=
      ih (g + 1) hS' (by omega)
    rw [parseSeq.eq_def]
    simp only [hatom, hpost, hseq, wordChain, List.foldr_cons]
    simp [h7, h5]

theorem parseRE_lit (S : List Char) (h : ∀ c ∈ S, reSpecial c = false) :
    parseRE (String.mk ('.' :: '*' :: (S ++ ['.', '*']))) = some (patRE S) := by
  have hatom : parseAtom (3 * S.length + 13) ('.' :: '*' :: (S ++ ['.', '*'])) =
      some (.anyc, '*' :: (S ++ ['.', '*'])) := by
    obtain ⟨f, hf⟩ : ∃ f, 3 * S.length + 13 = f + 1 := ⟨3 * S.length + 12, by omega⟩
    rw [hf, parseAtom.eq_def]
    simp
  have hinner : parseSeq (3 * S.length + 13) (S ++ ['.', '*']) =
      some (wordChain S, []) := parseSeq_lit S _ h (by omega)
  have hseq : parseSeq (3 * S.length + 13 + 1) ('.' :: '*' :: (S ++ ['.', '*'])) =
      some (patRE S, []) := by
    rw [parseSeq.eq_def]
    simp only [hatom, hinner, patRE]
    simp [parsePost, hinner]
  have halt : parseAlt (3 * S.length + 13 + 1 + 1) ('.' :: '*' :: (S ++ ['.', '*'])) =
      some (patRE S, []) := by
    rw [parseAlt.eq_def]
    simp [hseq]
  rw [parseRE.eq_def]
  have hfuel : 3 * (String.mk ('.' :: '*' :: (S ++ ['.', '*']))).toList.length + 3 =
      3 * S.length + 13 + 1 + 1 := by
    show 3 * ('.' :: '*' :: (S ++ ['.', '*'])).length + 3 = _
    simp
    ring
  rw [show (String.mk ('.' :: '*' :: (S ++ ['.', '*']))).toList =
      '.' :: '*' :: (S ++ ['.', '*']) from rfl] at hfuel ⊢
  rw [hfuel, halt]

theorem parseRE_toPattern (S : String) (hne : S ≠ "*")
    (h : ∀ c ∈ S.toList, reSpecial c = false) :
    parseRE (to_pattern (.str S)) = some (patRE S.toList) := by
  have hstar : isStarValue (.str S) = false := by
    simp only [isStarValue]
    exact beq_eq_false_iff_ne.mpr hne
  have hpat : to_pattern (.str S) = ".*" ++ S ++ ".*" := by
    simp [to_pattern, hstar, pyStr]
  have hmk : (".*" ++ S ++ ".*") = String.mk ('.' :: '*' :: (S.toList ++ ['.', '*'])) := by
    apply String.ext
    show (".*" ++ S ++ ".*").data = _
    rw [String.data_append, String.data_append]
    rfl
  rw [hpat, hmk]
  exact parseRE_lit S.toList h

theorem matches_star_anyc {u : List Char} :
    Matches (.star .anyc) u ↔ '\n' ∉ u := by
  induction u with
  | nil => exact ⟨fun _ => by simp, fun _ => .starNil _⟩
  | cons c cs ih =>
    constructor
    · intro h
      rcases matches_star.mp h with h0 | ⟨a, b, hab, hne, ha, hb⟩
      · exact absurd h0 (by simp)
      · rcases matches_anyc.mp ha with ⟨d, rfl, hd⟩
        have hcd : c = d := List.head_eq_of_cons_eq hab
        have hcs : cs = b := List.tail_eq_of_cons_eq hab
        subst hcd
        intro hmem
        rcases List.mem_cons.mp hmem with h | h
        · exact hd h.symm
        · exact (ih.mp (hcs ▸ hb)) h
    · intro h
      have hc : c ≠ '\n' := fun e => h (by simp [e])
      have hcs : '\n' ∉ cs := fun e => h (List.mem_cons_of_mem _ e)
      exact (show Matches (.star .anyc) ([c] ++ cs) from
        .starCons (.anyc c hc) (ih.mpr hcs) (by simp))

theorem matches_wordChain {S s : List Char} :
    Matches (wordChain S) s ↔ ∃ v, s = S ++ v ∧ '\n' ∉ v := by
  induction S generalizing s with
  | nil =>
    show Matches (.seq (.star .anyc) .eps) s ↔ _
    rw [matches_seq]
    constructor
    · rintro ⟨u, v, rfl, hu, hv⟩
      rw [matches_eps] at hv
      subst hv
      exact ⟨u, by simp, matches_star_anyc.mp hu⟩
    · rintro ⟨v, hsv, hv⟩
      refine ⟨v, [], ?_, matches_star_anyc.mpr hv, .eps⟩
      simpa using hsv
  | cons c S' ih =>
    show Matches (.seq (.chr c) (wordChain S')) s ↔ _
    rw [matches_seq]
    constructor
    · rintro ⟨u, v, rfl, hu, hv⟩
      rw [matches_chr] at hu
      subst hu
      rcases ih.mp hv with ⟨w, rfl, hw⟩
      exact ⟨w, by simp, hw⟩
    · rintro ⟨v, rfl, hv⟩
      exact ⟨[c], S' ++ v, by simp, matches_chr.mpr rfl, ih.mpr ⟨v, rfl, hv⟩⟩

theorem matches_patRE {S s : List Char} :
    Matches (patRE S) s ↔ ∃ u v, s = u ++ S ++ v ∧ '\n' ∉ u ∧ '\n' ∉ v := by
  show Matches (.seq (.star .anyc) (wordChain S)) s ↔ _
  rw [matches_seq]
  constructor
  · rintro ⟨u, w, rfl, hu, hw⟩
    rcases matches_wordChain.mp hw with ⟨v, rfl, hv⟩
    exact ⟨u, v, by simp, matches_star_anyc.mp hu, hv⟩
  · rintro ⟨u, v, rfl, hu, hv⟩
    exact ⟨u, S ++ v, by simp, matches_star_anyc.mpr hu,
      matches_wordChain.mpr ⟨v, rfl, hv⟩⟩

theorem reMatches_patRE {S w : List Char} (hw : '\n' ∉ w) :
    reMatches (patRE S) w = true ↔ S <:+: w := by
  rw [reMatches_iff]
  constructor
  · rintro ⟨p, hp, hm⟩
    rcases matches_patRE.mp hm with ⟨u, v, rfl, _, _⟩
    have h1 : S <:+: u ++ S ++ v := ⟨u, v, rfl⟩
    exact h1.trans hp.isInfix
  · rintro ⟨x, y, hxy⟩
    refine ⟨x ++ S, ⟨y, by rw [← hxy]⟩,
      matches_patRE.mpr ⟨x, [], by simp, ?_, by simp⟩⟩
    intro hmem
    exact hw (by rw [← hxy]; simp [hmem])

theorem reMatches_dotstar (l : List Char) :
    reMatches (.seq (.star .anyc) .eps) l = true := by
  cases l <;> simp [reMatches, nullable]

/-- C3 (amended): for a rule class/title string `S` other than `"*"` made
of literal characters only (no regex metacharacters), the field matches
exactly when `S` occurs as a substring of the window's field — provided
that field contains no newline (Python's `.` does not match `"\n"`, so
`".*S.*"` cannot reach an occurrence after a newline).  A field that is
absent or `"*"` matches every value. -/
theorem C3_substring_semantics (S subject : String) (hne : S ≠ "*")
    (hlit : ∀ c ∈ S.toList, reSpecial c = false)
    (hsub : '\n' ∉ subject.toList) :
    (re_match (to_pattern (.str S)) subject = some true ↔
      S.toList <:+: subject.toList)
    ∧ (∀ t : String, re_match (to_pattern (.str "*")) t = some true)
    ∧ (∀ t : String, re_match (to_pattern (dictGetD [] "class" (.str "*"))) t = some true) := by
  refine ⟨?_, ?_, ?_⟩
  · rw [re_match, parseRE_toPattern S hne hlit]
    simp only [Option.map_some', Option.some.injEq]
    exact reMatches_patRE hsub
  · intro t
    have h1 : to_pattern (.str "*") = ".*" := rfl
    have h2 : parseRE ".*" = some (.seq (.star .anyc) .eps) := by decide
    rw [re_match, h1, h2]
    simp [reMatches_dotstar]
  · intro t
    have h1 : to_pattern (dictGetD [] "class" (.str "*")) = ".*" := rfl
    have h2 : parseRE ".*" = some (.seq (.star .anyc) .eps) := by decide
    rw [re_match, h1, h2]
    simp [reMatches_dotstar]

/-- Witness for C3 (amended): the spec's own examples — rule title
`"README"` matches windows titled `"README.md"` and `"my-README-file"`. -/
theorem C3_substring_semantics_witness :
    re_match (to_pattern (.str "README")) "README.md" = some true
    ∧ re_match (to_pattern (.str "README")) "my-README-file" = some true := by
  have h1 := C3_substring_semantics "README" "README.md" (by decide) (by decide) (by decide)
  have h2 := C3_substring_semantics "README" "my-README-file" (by decide) (by decide) (by decide)
  exact ⟨h1.1.mpr (by decide), h2.1.mpr (by decide)⟩

theorem get_current_layer_name_eq (c : KClient) (d : Daemon) :
    get_current_layer_name c d =
      (queried_layer_name d, ⟨c.sent ++ [.requestCurrentLayerName]⟩, d) := rfl

/-- Counterexample to C1 as stated: with the current layer already
`"base"`, `change_layer "base"` does return `False` and sends no
`ChangeLayer` — but it is not silent: it sends a `RequestCurrentLayerName`
query over the socket; and calling it twice sends zero `ChangeLayer`
requests, not exactly one. -/
theorem C1_counterexample :
    (change_layer ⟨[]⟩ d_active_base (.str "base")).1 = false
    ∧ (change_layer ⟨[]⟩ d_active_base (.str "base")).2.1.sent =
        [.requestCurrentLayerName]
    ∧ (change_layer ⟨[]⟩ d_active_base (.str "base")).2.1.sent ≠ []
    ∧ countChangeLayer (change_layer_twice ⟨[]⟩ d_active_base (.str "base")).2.1.sent = 0
    ∧ countChangeLayer (change_layer_twice ⟨[]⟩ d_active_base (.str "base")).2.1.sent ≠ 1 := by
  refine ⟨rfl, rfl, ?_, rfl, ?_⟩
  · rw [show (change_layer ⟨[]⟩ d_active_base (.str "base")).2.1.sent =
        [Request.requestCurrentLayerName] from rfl]
    exact List.cons_ne_nil _ _
  · rw [show countChangeLayer
        (change_layer_twice ⟨[]⟩ d_active_base (.str "base")).2.1.sent = 0 from rfl]
    omega

/-- C1 (amended): `change_layer` always sends one `RequestCurrentLayerName`
query; when the queried name equals the requested layer it returns `False`
having sent nothing else (in particular no `ChangeLayer`), and two calls in
a row against a responsive, well-formed, applying daemon send at most one
`ChangeLayer` request — exactly one when the layer was not already
current, none when it was — with the second call a no-op returning
`False`. -/
theorem C1_idempotent_switch :
    (∀ (c : KClient) (d : Daemon) (L : String),
      py_eq_name (.str L) (queried_layer_name d) = true →
        change_layer c d (.str L) =
          (false, ⟨c.sent ++ [.requestCurrentLayerName]⟩, d))
    ∧ (∀ (d : Daemon) (L : String),
        d.responsive = true → d.garbled = false → d.applies = true →
        (change_layer_twice ⟨[]⟩ d (.str L)).1 = false
        ∧ countChangeLayer (change_layer_twice ⟨[]⟩ d (.str L)).2.1.sent =
            (if py_eq_name (.str L) d.currentLayer then 0 else 1)) := by
  constructor
  · intro c d L h
    rw [change_layer, get_current_layer_name_eq]
    simp [h]
  · intro d L h1 h2 h3
    have hq : queried_layer_name d = d.currentLayer := by
      simp [queried_layer_name, daemonHandle, h1, h2, parse_json_response, jget, dictGetD]
    by_cases hL : py_eq_name (.str L) d.currentLayer = true
    · have hfirst : change_layer ⟨[]⟩ d (.str L) =
          (false, ⟨[.requestCurrentLayerName]⟩, d) := by
        rw [change_layer, get_current_layer_name_eq]
        simp [hq, hL]
      have hsecond : change_layer ⟨[.requestCurrentLayerName]⟩ d (.str L) =
          (false, ⟨[.requestCurrentLayerName, .requestCurrentLayerName]⟩, d) := by
        rw [change_layer, get_current_layer_name_eq]
        simp [hq, hL]
      rw [change_layer_twice, hfirst]
      simp only [hsecond, hL, if_pos]
      exact ⟨trivial, rfl⟩
    · have hL' : py_eq_name (.str L) d.currentLayer = false := by
        simpa using hL
      have hfirst : change_layer ⟨[]⟩ d (.str L) =
          (true, ⟨[.requestCurrentLayerName, .changeLayer (.str L)]⟩,
            { d with currentLayer := .str L }) := by
        rw [change_layer, get_current_layer_name_eq]
        simp only [hq, hL', Bool.false_eq_true, if_false, ksend, daemonHandle, h3, if_pos]
        rfl
      have hq2 : queried_layer_name { d with currentLayer := JValue.str L } = .str L := by
        simp [queried_layer_name, daemonHandle, h1, h2, parse_json_response, jget, dictGetD]
      have hsecond : change_layer ⟨[.requestCurrentLayerName, .changeLayer (.str L)]⟩
          { d with currentLayer := JValue.str L } (.str L) =
          (false, ⟨[.requestCurrentLayerName, .changeLayer (.str L),
            .requestCurrentLayerName]⟩, { d with currentLayer := JValue.str L }) := by
        rw [change_layer, get_current_layer_name_eq]
        simp [hq2, py_eq_name]
      rw [change_layer_twice, hfirst]
      simp only [hsecond, hL', Bool.false_eq_true, if_false]
      exact ⟨trivial, rfl⟩

/-- Witness for C1 (amended), at a concrete responsive daemon on layer
`"base"`: requesting `"base"` is a no-op that still sends the query, and
requesting `"media"` twice sends exactly one `ChangeLayer`. -/
theorem C1_idempotent_switch_witness :
    change_layer ⟨[]⟩ d_active_base (.str "base") =
      (false, ⟨[.requestCurrentLayerName]⟩, d_active_base)
    ∧ (change_layer_twice ⟨[]⟩ d_active_base (.str "media")).1 = false
    ∧ countChangeLayer (change_layer_twice ⟨[]⟩ d_active_base (.str "media")).2.1.sent = 1 := by
  refine ⟨C1_idempotent_switch.1 ⟨[]⟩ d_active_base "base" (by rfl), ?_, ?_⟩
  · exact (C1_idempotent_switch.2 d_active_base "media" rfl rfl rfl).1
  · have h := (C1_idempotent_switch.2 d_active_base "media" rfl rfl rfl).2
    rw [h]
    rfl

/-- C10: `change_layer(L)` returns `True` whenever the queried layer name
differs from `L` — including when it is unavailable (`None` after a
timeout or malformed response) — and never waits for any acknowledgment
of the `ChangeLayer` request itself; consequently the dispatch handler
fires `cmd`/`fake_key`/`set_mouse` even against a completely dead daemon
whose layer never changed. -/
theorem C10_no_switch_confirmation :
    (∀ (c : KClient) (d : Daemon) (L : String),
      py_eq_name (.str L) (queried_layer_name d) = false →
        (change_layer c d (.str L)).1 = true
        ∧ (change_layer c d (.str L)).2.1.sent =
            c.sent ++ [.requestCurrentLayerName, .changeLayer (.str L)])
    ∧ on_focus_event [ruleFull] ⟨none, none⟩ ⟨[]⟩ d_dead ⟨"x", "t"⟩ =
        .ok ⟨some "t", some "x"⟩
          ⟨[.requestCurrentLayerName, .changeLayer (.str "l"),
            .actOnFakeKey "k" "Tap", .setMouse (.num 1) (.num 2)]⟩
          d_dead [.lookup, .dispatch, .runCmd (.str "c")]
    ∧ d_dead.currentLayer = .str "base" := by
  refine ⟨?_, rfl, rfl⟩
  intro c d L h
  rw [change_layer, get_current_layer_name_eq]
  simp only [h, Bool.false_eq_true, if_false, ksend]
  exact ⟨trivial, by simp⟩

/-- Witness for C10: against the dead daemon the queried name is `None`,
so a switch to `"l"` reports success without any acknowledgment. -/
theorem C10_no_switch_confirmation_witness :
    (change_layer ⟨[]⟩ d_dead (.str "l")).1 = true
    ∧ (change_layer ⟨[]⟩ d_dead (.str "l")).2.1.sent =
        [.requestCurrentLayerName, .changeLayer (.str "l")] := by
  have h := C10_no_switch_confirmation.1 ⟨[]⟩ d_dead "l" (by rfl)
  exact ⟨h.1, by simpa using h.2⟩

/-- Counterexample to C4 as stated: a matching rule with no `layer` causes
no side effect and no socket traffic, but the last-seen cache IS updated —
`last_win_title`/`last_win_class` are assigned before the `layer` check. -/
theorem C4_counterexample :
    on_focus_event [ruleClassA] ⟨none, none⟩ ⟨[]⟩ d_active_base ⟨"a", "t"⟩ =
      .ok ⟨some "t", some "a"⟩ ⟨[]⟩ d_active_base [.lookup, .dispatch]
    ∧ (⟨some "t", some "a"⟩ : ListenerState) ≠ (⟨none, none⟩ : ListenerState) := by
  exact ⟨rfl, by simp⟩

/-- C4 (amended): when a focus notification (differing from the cache)
matches a rule that specifies no truthy `layer`, the handler performs the
rule lookup, sends nothing to kanata, applies no `cmd`/`fake_key`/
`set_mouse` — but it DOES update the last-seen cache to the new window's
class and title before returning. -/
theorem C4_layerless_rule_updates_cache (rules : List PyDict) (st : ListenerState)
    (c : KClient) (d : Daemon) (win : WinInfo) (r : PyDict)
    (hnew : some win.title ≠ st.lastWinTitle ∨ some win.cls ≠ st.lastWinCls)
    (hdet : detect_rule rules win = .ok (some r))
    (hlayer : pyTruthy (dictGetD r "layer" .null) = false) :
    on_focus_event rules st c d win =
      .ok ⟨some win.title, some win.cls⟩ c d [.lookup, .dispatch] := by
  rw [on_focus_event, if_pos hnew, hdet]
  simp [hlayer]

/-- Witness for C4 (amended) at the counterexample's concrete input. -/
theorem C4_layerless_rule_updates_cache_witness :
    on_focus_event [ruleClassA] ⟨none, none⟩ ⟨[]⟩ d_active_base ⟨"a", "t"⟩ =
      .ok ⟨some "t", some "a"⟩ ⟨[]⟩ d_active_base [.lookup, .dispatch] :=
  C4_layerless_rule_updates_cache [ruleClassA] ⟨none, none⟩ ⟨[]⟩ d_active_base
    ⟨"a", "t"⟩ ruleClassA (Or.inl (by simp)) rfl rfl

theorem on_focus_event_self (rules : List PyDict) (c : KClient) (d : Daemon)
    (win : WinInfo) :
    on_focus_event rules ⟨some win.title, some win.cls⟩ c d win =
      .ok ⟨some win.title, some win.cls⟩ c d [] := by
  rw [on_focus_event, if_neg]
  simp

/-- On a matched rule, the handler either dies or returns with the cache
set to the new window, having dispatched exactly once. -/
theorem on_focus_event_matched (rules : List PyDict) (st : ListenerState)
    (c : KClient) (d : Daemon) (win : WinInfo) (r : PyDict)
    (hid : some win.title ≠ st.lastWinTitle ∨ some win.cls ≠ st.lastWinCls)
    (hdet : detect_rule rules win = .ok (some r)) :
    on_focus_event rules st c d win = .died ∨
    ∃ c' d' acts, on_focus_event rules st c d win =
      .ok ⟨some win.title, some win.cls⟩ c' d' acts ∧
      dispatchCount (.ok ⟨some win.title, some win.cls⟩ c' d' acts) ≤ 1 := by
  rw [on_focus_event, if_pos hid, hdet]
  by_cases hlayer : pyTruthy (dictGetD r "layer" .null) = false
  · right
    refine ⟨c, d, [.lookup, .dispatch], ?_, ?_⟩
    · simp [hlayer]
    · simp [dispatchCount, List.filter]
  · have hl' : pyTruthy (dictGetD r "layer" .null) = true := by simpa using hlayer
    simp only [hl', Bool.not_true, Bool.false_eq_true, if_false]
    rcases hcl : change_layer c d (dictGetD r "layer" .null) with ⟨okF, c1, d1⟩
    cases okF with
    | false =>
      right
      refine ⟨c1, d1, [.lookup, .dispatch], by simp, ?_⟩
      simp [dispatchCount, List.filter]
    | true =>
      simp only
      rcases hfk : (if pyTruthy (dictGetD r "fake_key" .null) = true then
          act_on_fake_key c1 d1 (dictGetD r "fake_key" .null)
          else some (c1, d1)) with _ | ⟨c2, d2⟩
      · left
        simp [hfk]
      · rcases hsm : (if pyTruthy (dictGetD r "set_mouse" .null) = true then
            kanata_set_mouse c2 d2 (dictGetD r "set_mouse" .null)
            else some (c2, d2)) with _ | ⟨c3, d3⟩
        · left
          simp [hfk, hsm]
        · right
          refine ⟨c3, d3,
            [Act.lookup, Act.dispatch] ++
              (if pyTruthy (dictGetD r "cmd" JValue.null) = true then
                [Act.runCmd (dictGetD r "cmd" JValue.null)] else []),
            by simp [hfk, hsm], ?_⟩
          by_cases hcmd : pyTruthy (dictGetD r "cmd" .null) = true
          · simp [hcmd, dispatchCount, List.filter]
          · have : pyTruthy (dictGetD r "cmd" .null) = false := by simpa using hcmd
            simp [this, dispatchCount, List.filter]

/-- C8: a focus notification whose class and title both equal the cached
last-dispatched pair is ignored entirely — no rule lookup, no layer-change
attempt, no side effect, no state change; and two consecutive focus
notifications carrying the same window dispatch at most once in total. -/
theorem C8_duplicate_suppression :
    (∀ (rules : List PyDict) (st : ListenerState) (c : KClient) (d : Daemon)
        (win : WinInfo),
      some win.title = st.lastWinTitle → some win.cls = st.lastWinCls →
      on_focus_event rules st c d win = .ok st c d [])
    ∧ (∀ (rules : List PyDict) (st : ListenerState) (c : KClient) (d : Daemon)
        (win : WinInfo),
      dispatchCount (on_focus_event rules st c d win) +
        secondDispatches rules st c d win ≤ 1) := by
  constructor
  · intro rules st c d win h1 h2
    obtain ⟨t, cl⟩ := st
    simp only at h1 h2
    rw [← h1, ← h2]
    exact on_focus_event_self rules c d win
  · intro rules st c d win
    by_cases hid : some win.title ≠ st.lastWinTitle ∨ some win.cls ≠ st.lastWinCls
    · cases hdet : detect_rule rules win with
      | error e =>
        have hstep : on_focus_event rules st c d win = .died := by
          rw [on_focus_event, if_pos hid, hdet]
        have h2nd : secondDispatches rules st c d win = 0 := by
          rw [secondDispatches, hstep]
        rw [hstep, h2nd]
        simp [dispatchCount]
      | ok o =>
        cases o with
        | none =>
          have hstep : on_focus_event rules st c d win = .ok st c d [.lookup] := by
            rw [on_focus_event, if_pos hid, hdet]
          have h1st : dispatchCount (on_focus_event rules st c d win) = 0 := by
            rw [hstep]
            simp [dispatchCount, List.filter]
          have h2nd : secondDispatches rules st c d win = 0 := by
            rw [secondDispatches, hstep]
            show dispatchCount (on_focus_event rules st c d win) = 0
            exact h1st
          rw [h1st, h2nd]
          omega
        | some r =>
          rcases on_focus_event_matched rules st c d win r hid hdet with
            hdie | ⟨c', d', acts, hok, hcnt⟩
          · have h2nd : secondDispatches rules st c d win = 0 := by
              rw [secondDispatches, hdie]
            rw [hdie, h2nd]
            simp [dispatchCount]
          · have h2nd : secondDispatches rules st c d win = 0 := by
              rw [secondDispatches, hok]
              show dispatchCount
                (on_focus_event rules ⟨some win.title, some win.cls⟩ c' d' win) = 0
              rw [on_focus_event_self]
              simp [dispatchCount]
            rw [hok, h2nd]
            simpa using hcnt
    · have hok : on_focus_event rules st c d win = .ok st c d [] := by
        rw [on_focus_event, if_neg hid]
      have h2nd : secondDispatches rules st c d win = 0 := by
        rw [secondDispatches, hok]
        show dispatchCount (on_focus_event rules st c d win) = 0
        rw [hok]
        simp [dispatchCount]
      rw [hok, h2nd]
      simp [dispatchCount]

/-- Witness for C8: a notification identical to the cached window is a
complete no-op. -/
theorem C8_duplicate_suppression_witness :
    on_focus_event [ruleFull] ⟨some "t", some "x"⟩ ⟨[]⟩ d_active_base ⟨"x", "t"⟩ =
      .ok ⟨some "t", some "x"⟩ ⟨[]⟩ d_active_base [] :=
  C8_duplicate_suppression.1 [ruleFull] ⟨some "t", some "x"⟩ ⟨[]⟩ d_active_base
    ⟨"x", "t"⟩ rfl rfl

/-- C6: validation does reject, with a fatal diagnostic naming the 1-based
rule index, a rule with an unknown key, a blank `class` string, and an
empty object — but a rule that is not a JSON object at all crashes with an
unhandled `AttributeError` at `rule.get("fake_key")` instead of reaching
the non-empty-object check and its intended diagnostic. -/
theorem C6_validation_diagnostics :
    fatalNaming (validateConfig []
      (.arr [.obj [("class", .str "a"), ("bogus", .num 1)]])) 1 = true
    ∧ fatalNaming (validateConfig [] (.arr [.obj [("class", .str " ")]])) 1 = true
    ∧ fatalNaming (validateConfig [] (.arr [.obj []])) 1 = true
    ∧ validateConfig [] (.arr [.num 42]) = .pyError "AttributeError"
    ∧ validateConfig [] (.arr [.obj [("class", .str "a")], .num 42]) =
        .pyError "AttributeError" := by
  refine ⟨by decide, by decide, by decide, by decide, by decide⟩

/-- Counterexample to C7 as stated: a 3-element integer `set_mouse` array
passes validation unrejected (only element types are checked, never the
length); an empty `fake_key` array is falsy and skipped entirely; and a
3-element string `fake_key` array aborts with an unhandled `ValueError`
(tuple unpacking), not a fatal diagnostic naming the rule. -/
theorem C7_counterexample :
    validateConfig [] (.arr [.obj [("set_mouse", .arr [.num 1, .num 2, .num 3])]]) = .ok
    ∧ validateConfig [] (.arr [.obj [("fake_key", .arr [])]]) = .ok
    ∧ validateConfig []
        (.arr [.obj [("fake_key", .arr [.str "a", .str "b", .str "c"])]]) =
        .pyError "ValueError" := by
  refine ⟨by decide, by decide, by decide⟩

theorem asStrList_map (ws : List String) : asStrList (ws.map JValue.str) = some ws := by
  induction ws with
  | nil => rfl
  | cons w ws ih => simp [asStrList, ih]

theorem isStrList_map (ws : List String) : isStrList (.arr (ws.map JValue.str)) = true := by
  simp [isStrList, List.all_map]

theorem validate_fake_key_bad_len (ws : List String) (rno : Option Nat)
    (h : ws.length ≠ 2) :
    validate_fake_key ws rno = .error (.pyError "ValueError") := by
  match ws with
  | [] => rfl
  | [a] => rfl
  | [a, b] => exact absurd rfl h
  | a :: b :: c :: rest => rfl

theorem infix_of_append_left {l p : List Char} (rest : List Char)
    (h : l <:+: p) : l <:+: p ++ rest := by
  exact h.trans (List.prefix_append p rest).isInfix

theorem namesRule_append_right (s t : String) (n : Nat) (h : namesRule s n = true) :
    namesRule (s ++ t) n = true := by
  simp only [namesRule, decide_eq_true_eq] at h ⊢
  have hl : (s ++ t).toList = s.toList ++ t.toList := by
    simp [String.toList, String.data_append]
  rw [hl]
  exact infix_of_append_left _ h

/-- C7 (amended): a truthy `fake_key` that is not an array of strings, and
a truthy `set_mouse` that is not an array of integers, fail fatally with
the rule number; but falsy values (`[]`, `false`, `0`, `""`, `null`) are
skipped without any check, a string-array `fake_key` of length other than
two aborts with an unhandled unpacking `ValueError` carrying no rule
number, a two-element string array is checked for a blank name (fatal
without the rule number) and a valid normalized action (fatal with the
rule number otherwise), and an integer array `set_mouse` of любой length
passes (element types only; Python booleans count as integers). -/
theorem C7_fake_key_set_mouse_validation :
    (∀ v : JValue, pyTruthy v = false →
      validateConfig [] (.arr [.obj [("fake_key", v)]]) = .ok
      ∧ validateConfig [] (.arr [.obj [("set_mouse", v)]]) = .ok)
    ∧ (∀ v : JValue, pyTruthy v = true → isStrList v = false →
        fatalNaming (validateConfig [] (.arr [.obj [("fake_key", v)]])) 1 = true)
    ∧ (∀ ws : List String, ws ≠ [] → ws.length ≠ 2 →
        validateConfig [] (.arr [.obj [("fake_key", .arr (ws.map JValue.str))]]) =
          .pyError "ValueError")
    ∧ (∀ a : String,
        validateConfig [] (.arr [.obj [("fake_key", .arr [.str " ", .str a])]]) =
          .fatal "Fake key name must not be blank")
    ∧ (∀ n a : String, is_blank n = false →
        pyCapitalize a ∉ valid_actions →
        fatalNaming (validateConfig []
          (.arr [.obj [("fake_key", .arr [.str n, .str a])]])) 1 = true)
    ∧ (∀ n a : String, is_blank n = false →
        pyCapitalize a ∈ valid_actions →
        validateConfig [] (.arr [.obj [("fake_key", .arr [.str n, .str a])]]) = .ok)
    ∧ (∀ v : JValue, pyTruthy v = true → isIntList v = false →
        fatalNaming (validateConfig [] (.arr [.obj [("set_mouse", v)]])) 1 = true)
    ∧ (∀ v : JValue, pyTruthy v = true → isIntList v = true →
        validateConfig [] (.arr [.obj [("set_mouse", v)]]) = .ok) := by
  refine ⟨?_, ?_, ?_, ?_, ?_, ?_, ?_, ?_⟩
  · intro v h
    constructor
    · simp +decide [validateConfig, validateRules, validateRule, dictGetD,
        checkStrKeys, h]
    · simp +decide [validateConfig, validateRules, validateRule, dictGetD,
        checkStrKeys, h]
  · intro v h1 h2
    simp +decide [validateConfig, validateRules, validateRule, dictGetD,
      checkStrKeys, h1, h2, fatalNaming, namesRule]
  · intro ws h1 h2
    have htr : pyTruthy (.arr (ws.map JValue.str)) = true := by
      simp [pyTruthy]
      intro e
      exact absurd e h1
    simp +decide [validateConfig, validateRules, validateRule, dictGetD, checkStrKeys,
      htr, isStrList_map, asStrList_map, validate_fake_key_bad_len ws (some 1) h2]
  · intro a
    rfl
  · intro n a h1 h2
    simp +decide [validateConfig, validateRules, validateRule, dictGetD, checkStrKeys,
      pyTruthy, isStrList, asStrList, validate_fake_key, h1, h2, fatalNaming]
    exact namesRule_append_right _ _ _ (namesRule_append_right _ _ _
      (namesRule_append_right _ _ _ (by decide)))
  · intro n a h1 h2
    simp +decide [validateConfig, validateRules, validateRule, dictGetD, checkStrKeys,
      pyTruthy, isStrList, asStrList, validate_fake_key, h1, h2]
  · intro v h1 h2
    simp +decide [validateConfig, validateRules, validateRule, dictGetD,
      checkStrKeys, h1, h2, fatalNaming, namesRule]
  · intro v h1 h2
    simp +decide [validateConfig, validateRules, validateRule, dictGetD,
      checkStrKeys, h1, h2]

/-- Witness for C7 (amended) at concrete inputs: a truthy non-array
`fake_key` is fatal with the rule number; a boolean `set_mouse` pair
passes (booleans are integers to `isinstance`); a wrong-length string
array aborts without the rule number. -/
theorem C7_fake_key_set_mouse_validation_witness :
    fatalNaming (validateConfig [] (.arr [.obj [("fake_key", .str "x")]])) 1 = true
    ∧ validateConfig [] (.arr [.obj [("set_mouse", .arr [.bool true, .bool false])]]) = .ok
    ∧ validateConfig [] (.arr [.obj [("fake_key", .arr [.str "k"])]]) =
        .pyError "ValueError" := by
  refine ⟨?_, ?_, ?_⟩
  · exact C7_fake_key_set_mouse_validation.2.1 (.str "x") (by decide) (by decide)
  · exact C7_fake_key_set_mouse_validation.2.2.2.2.2.2.2
      (.arr [.bool true, .bool false]) (by decide) (by decide)
  · exact C7_fake_key_set_mouse_validation.2.2.1 ["k"] (by decide) (by decide)
